import Mathlib

/-!
Verification of the fetch-and-cache engine of the Fukayo scraper base class
(`src/packages/preload/src/apiServer.ts`, class `Mirror`) and of the ephemeral
file server (`src/unnamed/part_000`, class `FileServer`), as a shallow
embedding in Lean.

External collaborators (axios, the rendering crawler, the manga database, the
UUID generator, `file-type` detection, base64 encoding, JSON parsing) are
passed in as explicit function or outcome parameters, following the spec,
which treats them as opaque boundaries.
-/

/-! ## String helpers (JS `String.prototype.startsWith` / `includes`) -/

/-- List-level prefix test, structural so the kernel can evaluate it. -/
def isPrefixL : List Char → List Char → Bool
  | [], _ => true
  | _ :: _, [] => false
  | a :: as, b :: bs => a == b && isPrefixL as bs

/-- List-level substring test. -/
def containsL (pat : List Char) : List Char → Bool
  | [] => isPrefixL pat []
  | l@(_ :: rest) => isPrefixL pat l || containsL pat rest

/-- JS `s.startsWith(pre)`. -/
def startsWithStr (s pre : String) : Bool := isPrefixL pre.data s.data

/-- JS `s.includes(pat)`. -/
def containsSubstr (s pat : String) : Bool := containsL pat.data s.data

/-! ## Rate-limiter counter events

`Mirror.#concurrency` is a mutable JS number. Each fetch-family method
performs `this.#concurrency++` at entry; completions decrement it either
through the single exit point `Mirror.#returnFetch` (which clamps the counter
at zero) or through an explicit unclamped `this.#concurrency--` on the throw
paths inside `Mirror.fetch`. -/

inductive CEvent
  /-- `this.#concurrency++` at the entry of fetch / post / downloadImage. -/
  | inc
  /-- the decrement inside `#returnFetch`, clamped at a non-negative floor. -/
  | decClamp
  /-- a bare `this.#concurrency--` on a throw path of `Mirror.fetch`. -/
  | decRaw
  deriving DecidableEq, Repr

def isInc : CEvent → Bool
  | .inc => true
  | _ => false

def countInc (l : List CEvent) : Nat := l.countP isInc

def countDec (l : List CEvent) : Nat := l.countP fun e => !isInc e

/-- One counter update, from the source: `++` is unguarded; `#returnFetch`
does `this.#concurrency--; if(this.#concurrency < 0) this.#concurrency = 0`;
the explicit throw-path decrements are bare `--`. -/
def cstep (c : Int) : CEvent → Int
  | .inc => c + 1
  | .decClamp => if c - 1 < 0 then 0 else c - 1
  | .decRaw => c - 1

/-- Run a sequence of counter events from a starting counter value. -/
def crun (c : Int) (l : List CEvent) : Int := l.foldl cstep c

/-- `okw k l`: replaying `l` with `k` pending (incremented, not yet
decremented) requests never decrements more often than it has incremented.
Every event trace emitted by the code satisfies `okw 0`. -/
def okw (k : Nat) : List CEvent → Bool
  | [] => true
  | CEvent.inc :: t => okw (k + 1) t
  | CEvent.decClamp :: t => decide (1 ≤ k) && okw (k - 1) t
  | CEvent.decRaw :: t => decide (1 ≤ k) && okw (k - 1) t

/-- The wait performed by `Mirror.#wait`: `this.waitTime * this.#concurrency`
milliseconds. -/
def waitMs (waitTime c : Int) : Int := waitTime * c

/-! ## `Mirror.post`

`post` increments the counter, waits, then either returns `resp.data` or, on
any axios error, logs and returns `undefined`. No path decrements the
counter. The response payload is abstracted to an `Option String`. -/

def post (resp : Option String) : Option String × List CEvent :=
  (resp, [CEvent.inc])

/-! ## The transport fallback chain (`Mirror.#internalFetch`) -/

/-- An opaque parsed-JSON value (`axios` can hand back an already-decoded
object, and `JSON.parse` produces one). -/
structure JsonVal where
  val : String
  deriving DecidableEq, Repr

/-- A textual or structured axios response body. -/
inductive Body
  | strB (s : String)
  | objB (j : JsonVal)
  deriving DecidableEq, Repr

/-- Outcome of the direct `axios.get` call: a body, or a thrown error. -/
inductive AxiosOutcome
  | ok (b : Body)
  | err (msg : String)
  deriving DecidableEq, Repr

/-- What `this.crawler(...)` (the rendering transport) does when invoked:
resolves to a value or throws. Its resolved value is consumed by
`Mirror.fetch` which distinguishes `undefined`, `Error`, `string`, `object`. -/
inductive FetchRes
  | undef
  | errRes (msg : String)
  | strRes (s : String)
  | objRes (j : JsonVal)
  deriving DecidableEq, Repr

inductive CrawlerOutcome
  | returns (r : FetchRes)
  | throws (msg : String)
  deriving DecidableEq, Repr

/-- Result of `Mirror.#internalFetch` as observed by `Mirror.fetch`: either a
resolved value, or an exception propagating out of `#internalFetch`. -/
inductive IFOut
  | value (r : FetchRes)
  | thrownE (msg : String)
  deriving DecidableEq, Repr

/-- The `try` block of `Mirror.#internalFetch`: the axios attempt plus the
selector validation. `selFound sel s` models
`this.#loadHTML(s)(sel).length > 0`. An absent selector in a textual body
throws `selector_not_found`; a structured body with a selector requirement
throws `no_selector_in_<typeof data>` (here always `object`). -/
def directAttempt (wfs : Option String) (selFound : String → String → Bool)
    (axios : AxiosOutcome) : Except String Body :=
  match axios with
  | .err m => .error m
  | .ok (.strB s) =>
    match wfs with
    | some sel => if selFound sel s then .ok (.strB s) else .error "selector_not_found"
    | none => .ok (.strB s)
  | .ok (.objB j) =>
    match wfs with
    | some _ => .error "no_selector_in_object"
    | none => .ok (.objB j)

/-- What an invocation of the rendering transport delivers to `fetch`. -/
def crawlerOutputOf (craw : CrawlerOutcome) : IFOut :=
  match craw with
  | .returns r => .value r
  | .throws m => .thrownE m

/-- `Mirror.#internalFetch`: run the direct attempt; on any caught error whose
message includes `no_selector_in_` rethrow it, otherwise reissue the job to
the rendering transport (`this.crawler`, 10s timeout). -/
def internalFetch (wfs : Option String) (selFound : String → String → Bool)
    (axios : AxiosOutcome) (craw : CrawlerOutcome) : IFOut :=
  match directAttempt wfs selFound axios with
  | .ok (.strB s) => .value (.strRes s)
  | .ok (.objB j) => .value (.objRes j)
  | .error m =>
    if containsSubstr m "no_selector_in_" then .thrownE m
    else crawlerOutputOf craw

/-! ## `Mirror.fetch`: type coercion stage -/

inductive FetchType
  | htmlT
  | jsonT
  | strT
  deriving DecidableEq, Repr

inductive FetchOut
  | htmlOut (s : String)
  | jsonOut (j : JsonVal)
  | strOut (s : String)
  deriving DecidableEq, Repr

/-- `Mirror.fetch` after `#internalFetch` resolved (or threw): dispatch on the
shape of the result and the requested type, together with the counter events
each path performs. `parse` models `JSON.parse` (`none` = it throws),
`stringify` models `JSON.stringify`. An exception escaping `#internalFetch`
propagates before any decrement runs. The `unknown_type` guard is
unreachable here because the requested type is one of the three literals. -/
def fetchM (parse : String → Option JsonVal) (stringify : JsonVal → String)
    (res : IFOut) (t : FetchType) : Except String FetchOut × List CEvent :=
  match res with
  | .thrownE m => (.error m, [CEvent.inc])
  | .value .undef => (.error "no_response", [CEvent.inc, CEvent.decRaw])
  | .value (.errRes m) => (.error m, [CEvent.inc, CEvent.decRaw])
  | .value (.strRes s) =>
    match t with
    | .strT => (.ok (.strOut s), [CEvent.inc, CEvent.decClamp])
    | .htmlT => (.ok (.htmlOut s), [CEvent.inc, CEvent.decClamp])
    | .jsonT =>
      match parse s with
      | some j => (.ok (.jsonOut j), [CEvent.inc, CEvent.decClamp])
      | none => (.error "invalid_json", [CEvent.inc, CEvent.decRaw])
  | .value (.objRes j) =>
    match t with
    | .jsonT => (.ok (.jsonOut j), [CEvent.inc, CEvent.decClamp])
    | .strT => (.ok (.strOut (stringify j)), [CEvent.inc, CEvent.decClamp])
    | .htmlT => (.error "cant_parse_json_to_html", [CEvent.inc, CEvent.decRaw])

/-! ## `Mirror.downloadImage` and the response cache -/

/-- A Node `Buffer`, as its byte list. -/
abbrev Buffer := List Nat

inductive RetType
  | cover
  | page
  deriving DecidableEq, Repr

/-- A value produced by `Mirror.#loadFromCache`: a base64 data URI string
(for covers) or a raw buffer (for pages). -/
inductive CacheVal
  | uri (s : String)
  | buf (b : Buffer)
  deriving DecidableEq, Repr

inductive Transport
  | axiosT
  | crawlerT
  deriving DecidableEq, Repr

/-- What a `downloadImage` call ends in: a `/files/...` path registered with
the file server, a data URI, `undefined`, or a rejection (an exception that
escapes the method: the `new URL` throw in `#generateCacheFilename`, or the
crawler rejecting inside the catch block, neither of which is handled). -/
inductive DLRet
  | served (path : String)
  | dataUri (s : String)
  | nothing
  | thrown
  deriving DecidableEq, Repr

/-- `Mirror.getFileMime`: detect the file type of the buffer; when detection
yields nothing, default to `image/jpeg`. `detect` models the external
`fileTypeFromBuffer`. -/
def getFileMime (detect : Buffer → Option String) (b : Buffer) : String :=
  (detect b).getD "image/jpeg"

/-- `Mirror.#loadFromCache`: only active when caching is enabled; a readable
file is a hit (`cachedFile` models the `readFileSync` outcome, `none` = it
threw). For covers the mime is re-detected and a data URI is returned; for
pages the raw buffer is returned. `b64` models `buffer.toString("base64")`. -/
def loadFromCache (detect : Buffer → Option String) (b64 : Buffer → String)
    (cacheEnabled : Bool) (cachedFile : Option Buffer) (rt : RetType) : Option CacheVal :=
  if cacheEnabled then
    match cachedFile with
    | some buffer =>
      match rt with
      | .cover => some (.uri ("data:" ++ getFileMime detect buffer ++ ";base64," ++ b64 buffer))
      | .page => some (.buf buffer)
    | none => none
  else none

/-- `Mirror.#returnFetch(cache, filename)` on a cache hit: a `Buffer` with a
filename is handed to `FileServer.getInstance().serv`, which yields
`/files/<filename>`; a string is returned as-is. (The counter decrement it
also performs is tracked in the event list of `downloadImage`.) -/
def returnFetchCache : CacheVal → String → DLRet
  | .buf _, filename => .served ("/files/" ++ filename)
  | .uri s, _ => .dataUri s

/-- What the rendering transport does when `downloadImage` invokes it inside
the catch block: it resolves (to a `Buffer`, or to something else — `returns
none`), or it rejects; a rejection escapes untouched because the `await
this.crawler(...)` call has no enclosing handler. -/
inductive CrawlerImgOutcome
  | returns (r : Option Buffer)
  | throws
  deriving DecidableEq, Repr

/-- The per-call inputs and transport outcomes of one `downloadImage` call. -/
structure DLArgs where
  /-- whether `new URL(url)` in `#generateCacheFilename` succeeds (it throws
  on an unparseable url, after the increment and before anything else) -/
  urlParseOk : Bool
  /-- the application-wide `cacheEnabled` getter -/
  cacheEnabled : Bool
  /-- `readFileSync` outcome for the cache filename (`none` = miss/unreadable) -/
  cachedFile : Option Buffer
  /-- the axios arraybuffer attempt (`none` = it threw) -/
  axiosRes : Option Buffer
  /-- the crawler fallback outcome when invoked -/
  crawlerRes : CrawlerImgOutcome
  /-- `this.options.cache` -/
  optionsCache : Bool
  returnType : RetType
  /-- the cache filename derived from the normalized URL -/
  filename : String
  deriving DecidableEq, Repr

/-- The buffer `downloadImage` ends up with when no exception escapes: axios
result, else the crawler resolution (the crawler is only consulted when
axios threw). -/
def bufferOf (a : DLArgs) : Option Buffer :=
  match a.axiosRes with
  | some b => some b
  | none =>
    match a.crawlerRes with
    | CrawlerImgOutcome.returns r => r
    | CrawlerImgOutcome.throws => none

/-- Which transports the fetch part of `downloadImage` invokes. -/
def transportsOf (a : DLArgs) : List Transport :=
  match a.axiosRes with
  | some _ => [Transport.axiosT]
  | none => [Transport.axiosT, Transport.crawlerT]

structure DLOut where
  ret : DLRet
  transports : List Transport
  events : List CEvent
  savedToCache : Bool
  deriving DecidableEq, Repr

/-- The tail of `downloadImage` once the transports resolved: the
`if(!buffer)` check returning `#returnFetch(undefined)`, the mime check, the
optional cache save, and the return through `#returnFetch`; a non-image mime
falls off the end of the method (implicit `undefined`, no `#returnFetch`, no
decrement). -/
def dlAfterBuffer (detect : Buffer → Option String) (b64 : Buffer → String)
    (a : DLArgs) (buffer : Option Buffer) (ts : List Transport) : DLOut :=
  match buffer with
  | none => ⟨DLRet.nothing, ts, [CEvent.inc, CEvent.decClamp], false⟩
  | some buf =>
    let mime := getFileMime detect buf
    if startsWithStr mime "image/" then
      match a.returnType with
      | RetType.page =>
        ⟨DLRet.served ("/files/" ++ a.filename), ts,
          [CEvent.inc, CEvent.decClamp], a.optionsCache && a.cacheEnabled⟩
      | RetType.cover =>
        ⟨DLRet.dataUri ("data:" ++ mime ++ ";charset=utf-8;base64," ++ b64 buf),
          ts, [CEvent.inc, CEvent.decClamp], a.optionsCache && a.cacheEnabled⟩
    else ⟨DLRet.nothing, ts, [CEvent.inc], false⟩

/-- `Mirror.downloadImage`, with the transports it invokes and the counter
events it performs. Paths, mirroring the source: after the increment,
`#generateCacheFilename` runs `new URL(url)`, whose throw on an unparseable
url escapes with no decrement; a cache hit returns through `#returnFetch`;
otherwise axios is tried and, in the catch, the crawler — whose own
rejection also escapes with no decrement; the resolved buffer then goes
through `dlAfterBuffer`. -/
def downloadImage (detect : Buffer → Option String) (b64 : Buffer → String)
    (a : DLArgs) : DLOut :=
  if a.urlParseOk then
    match loadFromCache detect b64 a.cacheEnabled a.cachedFile a.returnType with
    | some cache => ⟨returnFetchCache cache a.filename, [], [CEvent.inc, CEvent.decClamp], false⟩
    | none =>
      match a.axiosRes with
      | some buf => dlAfterBuffer detect b64 a (some buf) (transportsOf a)
      | none =>
        match a.crawlerRes with
        | CrawlerImgOutcome.throws =>
          ⟨DLRet.thrown, [Transport.axiosT, Transport.crawlerT], [CEvent.inc], false⟩
        | CrawlerImgOutcome.returns r => dlAfterBuffer detect b64 a r (transportsOf a)
  else ⟨DLRet.thrown, [], [CEvent.inc], false⟩

/-! ## Entity identity assignment (`Mirror.#uuidv5` and the builders)

The manga database and the UUID generator live outside the given sources;
per the spec they are opaque boundaries. Modelled from the spec: `gen` is
"an opaque function from (source, language-set, url, optional forced id) to
a stable identifier string"; `getById`/`getByUrl` are the library store
lookups `get({id, langs})` / `get({mirror, langs, url})`. -/

structure MgRecord where
  id : String
  deriving DecidableEq, Repr

/-- The argument record handed to `uuidgen.generate` (mirror name/version,
langs, url, optional forced id, and the `force` flag). -/
structure GenArgs where
  mirrorName : String
  mirrorVersion : Nat
  langs : List String
  url : String
  id : Option String
  forceSeed : Bool
  deriving DecidableEq, Repr

/-- JS truthiness of an optional string field (`undefined` and `""` are
falsy). -/
def idTruthy : Option String → Bool
  | some s => s != ""
  | none => false

/-- `Mirror.#uuidv5`. `force && options.id` adopts an existing record found
by `(id, langs)` or mints from the forced input; `!force && options.url`
(the `options.langs` conjunct is an array, hence always truthy) adopts an
existing record found by `(mirror, langs, url)` or mints from the tuple;
anything else throws `uuidgen: missing options`. -/
def uuidv5 (gen : GenArgs → String)
    (getById : String → List String → Option MgRecord)
    (getByUrl : String → List String → String → Option MgRecord)
    (name : String) (version : Nat)
    (force : Bool) (langs : List String) (url : String) (id : Option String) :
    Except String String :=
  if force && idTruthy id then
    match getById (id.getD "") langs with
    | some mg => .ok mg.id
    | none => .ok (gen ⟨name, version, langs, url, id, true⟩)
  else if !force && (url != "") then
    match getByUrl name langs url with
    | some mg => .ok mg.id
    | none => .ok (gen ⟨name, version, langs, url, id, false⟩)
  else .error "uuidgen: missing options"

/-- The identity step of `Mirror.mangaPageBuilder`: a truthy forced id uses
`#uuidv5(true, {langs, url, id})`, otherwise `#uuidv5(false, {langs, url})`. -/
def mangaPageBuilderId (gen : GenArgs → String)
    (getById : String → List String → Option MgRecord)
    (getByUrl : String → List String → String → Option MgRecord)
    (name : String) (version : Nat)
    (langs : List String) (url : String) (forcedId : Option String) :
    Except String String :=
  if idTruthy forcedId then uuidv5 gen getById getByUrl name version true langs url forcedId
  else uuidv5 gen getById getByUrl name version false langs url none

/-- The identity step of `Mirror.chaptersBuilder` (language set is the
singleton `[chapter.lang]`). -/
def chaptersBuilderId (gen : GenArgs → String)
    (getById : String → List String → Option MgRecord)
    (getByUrl : String → List String → String → Option MgRecord)
    (name : String) (version : Nat)
    (lang : String) (url : String) (forcedId : Option String) :
    Except String String :=
  if idTruthy forcedId then uuidv5 gen getById getByUrl name version true [lang] url forcedId
  else uuidv5 gen getById getByUrl name version false [lang] url none

/-- The identity step of `Mirror.searchResultsBuilder` (same algorithm as the
manga page builder). -/
def searchResultsBuilderId (gen : GenArgs → String)
    (getById : String → List String → Option MgRecord)
    (getByUrl : String → List String → String → Option MgRecord)
    (name : String) (version : Nat)
    (langs : List String) (url : String) (forcedId : Option String) :
    Except String String :=
  if idTruthy forcedId then uuidv5 gen getById getByUrl name version true langs url forcedId
  else uuidv5 gen getById getByUrl name version false langs url none

/-! ## The ephemeral file server (`FileServer`)

State: the `timeouts` bookkeeping array (one record per filename with a live
timer; the timer itself is represented by the lifetime it was armed with)
and the files on disk in the serving folder. -/

namespace FileServer

structure State where
  timeouts : List (String × Nat)
  disk : List (String × Buffer)
  deriving DecidableEq, Repr

/-- Replace the `timeout` field of the first entry matching `f` (the source
mutates the record found by `Array.prototype.find`). -/
def replaceTimer : List (String × Nat) → String → Nat → List (String × Nat)
  | [], _, _ => []
  | p :: rest, f, lt => if p.1 == f then (p.1, lt) :: rest else p :: replaceTimer rest f lt

/-- Is there a live timer entry for `f`? -/
def hasTimer (s : State) (f : String) : Bool := s.timeouts.any fun p => p.1 == f

/-- `FileServer.resetFile`: if a timer entry for `f` exists, clear the old
timer, arm a new one with the given lifetime (mutating the found record in
place) and return `true`; otherwise return `false`. -/
def resetFile (s : State) (f : String) (lt : Nat) : Bool × State :=
  if hasTimer s f then (true, { s with timeouts := replaceTimer s.timeouts f lt })
  else (false, s)

/-- Overwrite semantics of `writeFileSync`. -/
def writeDisk (d : List (String × Buffer)) (f : String) (b : Buffer) : List (String × Buffer) :=
  (f, b) :: d.filter fun p => p.1 != f

/-- `FileServer.initFile`: write the buffer (`writeOk` models whether
`writeFileSync` succeeds; on failure the catch returns `false` and nothing is
pushed), push a fresh timer entry, return `true`. -/
def initFile (s : State) (f : String) (b : Buffer) (lt : Nat) (writeOk : Bool) : Bool × State :=
  if writeOk then
    (true, { timeouts := s.timeouts ++ [(f, lt)], disk := writeDisk s.disk f b })
  else (false, s)

/-- `FileServer.serv`: reset an existing timer, else init the file; in every
case the servable path `/files/<filename>` is returned. -/
def serv (s : State) (b : Buffer) (f : String) (lt : Nat) (writeOk : Bool) : String × State :=
  let r := resetFile s f lt
  if r.1 then ("/files/" ++ f, r.2)
  else
    let c := initFile r.2 f b lt writeOk
    ("/files/" ++ f, c.2)

/-- `FileServer.delete`: clear and drop any timer entry for `f` (this happens
before the unlink), then `unlinkSync` the file — which throws when the file
is absent, caught to return `false`. -/
def delete (s : State) (f : String) : Bool × State :=
  let t := s.timeouts.filter fun p => p.1 != f
  if s.disk.any (fun p => p.1 == f) then
    (true, { timeouts := t, disk := s.disk.filter fun p => p.1 != f })
  else (false, { s with timeouts := t })

/-- The operations that mutate a `FileServer` after construction: `serv`
calls and `delete` calls (a timer firing invokes `delete` on its filename,
so timer expiry is covered by `deleteOp`). -/
inductive Op
  | servOp (b : Buffer) (f : String) (lt : Nat) (writeOk : Bool)
  | deleteOp (f : String)
  deriving DecidableEq, Repr

def applyOp (s : State) : Op → State
  | .servOp b f lt w => (serv s b f lt w).2
  | .deleteOp f => (delete s f).2

/-- Run a sequence of operations from the freshly constructed state (the
constructor empties the serving folder and starts with no timers). -/
def run (ops : List Op) : State := ops.foldl applyOp ⟨[], []⟩

def Reachable (s : State) : Prop := ∃ ops, run ops = s

def timerNames (s : State) : List String := s.timeouts.map Prod.fst

end FileServer

/-! ## `FileServer` construction purge (`FileServer.empty`)

The constructor runs `empty()`, which iterates the directory entries and,
for each entry that passes `existsSync` (which follows symlinks, so a
dangling symlink fails it), consults `statSync` (which also follows
symlinks, so `isSymbolicLink()` on its result is false whenever it
succeeds) and attempts `unlinkSync` inside a try/catch that ignores
failures. -/

/-- A directory entry: a regular file, or a symlink whose target does or
does not exist. -/
inductive DirEntry
  | regular (name : String)
  | symlink (name : String) (targetExists : Bool)
  deriving DecidableEq, Repr

def entryName : DirEntry → String
  | .regular n => n
  | .symlink n _ => n

/-- Node `existsSync`, which resolves symlinks: false on a dangling symlink. -/
def existsSyncE : DirEntry → Bool
  | .regular _ => true
  | .symlink _ t => t

/-- Node `statSync(path).isSymbolicLink()`: `statSync` follows the link, so
when it succeeds the reported stat is the target file and never a symlink;
on a dangling symlink it throws (`none`). -/
def statSyncIsSymlink : DirEntry → Option Bool
  | .regular _ => some false
  | .symlink _ true => some false
  | .symlink _ false => none

structure PurgeResult where
  /-- names `unlinkSync` was attempted on, in directory order -/
  attempted : List String
  /-- entries still present after the purge -/
  remaining : List DirEntry
  deriving DecidableEq, Repr

/-- The loop body of `FileServer.empty`: `unlinkOk` models whether a given
`unlinkSync` succeeds; its failure is swallowed and the loop continues, so
the purge (and hence construction) always completes. -/
def emptyLoop (unlinkOk : String → Bool) : List DirEntry → PurgeResult
  | [] => ⟨[], []⟩
  | e :: rest =>
    let r := emptyLoop unlinkOk rest
    if existsSyncE e then
      match statSyncIsSymlink e with
      | some true => ⟨r.attempted, e :: r.remaining⟩
      | some false =>
        if unlinkOk (entryName e) then ⟨entryName e :: r.attempted, r.remaining⟩
        else ⟨entryName e :: r.attempted, e :: r.remaining⟩
      | none => ⟨r.attempted, e :: r.remaining⟩
    else ⟨r.attempted, e :: r.remaining⟩

/-! ## Interleavings of counter-event traces

The runtime is single-process and cooperatively scheduled: an observed event
sequence on one `Mirror` instance is an interleaving of the per-call event
sequences. -/

/-- `Shuffle a b c`: `c` is an interleaving of `a` and `b` (order within each
preserved). -/
inductive Shuffle : List CEvent → List CEvent → List CEvent → Prop
  | nil : Shuffle [] [] []
  | left : ∀ {a b c : List CEvent} (e : CEvent), Shuffle a b c → Shuffle (e :: a) b (e :: c)
  | right : ∀ {a b c : List CEvent} (e : CEvent), Shuffle a b c → Shuffle a (e :: b) (e :: c)

/-- `InterleavingOf ls tr`: `tr` is an interleaving of all the traces in
`ls`. -/
inductive InterleavingOf : List (List CEvent) → List CEvent → Prop
  | nil : InterleavingOf [] []
  | cons : ∀ {ls : List (List CEvent)} {c : List CEvent} {l d : List CEvent},
      InterleavingOf ls c → Shuffle l c d → InterleavingOf (l :: ls) d

/-- The counter-event trace of one completed or abandoned call to `fetch`,
`downloadImage` or `post`, as emitted by the respective model. -/
def IsOpTrace (l : List CEvent) : Prop :=
  (∃ pj st res t, l = (fetchM pj st res t).2)
  ∨ (∃ detect b64 a, l = (downloadImage detect b64 a).events)
  ∨ (∃ r, l = (post r).2)

/-! # Helper lemmas -/

theorem okw_nonneg (l : List CEvent) : ∀ (k : Nat) (c : Int),
    okw k l = true → (k : Int) ≤ c → 0 ≤ c → 0 ≤ crun c l := by
  induction l with
  | nil => intro k c _ _ hc; simpa [crun] using hc
  | cons e t ih =>
    intro k c hok hkc hc
    have hstep : crun c (e :: t) = crun (cstep c e) t := rfl
    rw [hstep]
    cases e with
    | inc =>
      simp only [okw] at hok
      exact ih (k + 1) (c + 1) hok (by push_cast; omega) (by omega)
    | decClamp =>
      simp only [okw, Bool.and_eq_true, decide_eq_true_eq] at hok
      obtain ⟨hk, hok'⟩ := hok
      have hc1 : (1 : Int) ≤ c := le_trans (by exact_mod_cast hk) hkc
      have hcs : cstep c CEvent.decClamp = c - 1 := by
        simp only [cstep]
        rw [if_neg (by omega)]
      rw [hcs]
      exact ih (k - 1) (c - 1) hok' (by omega) (by omega)
    | decRaw =>
      simp only [okw, Bool.and_eq_true, decide_eq_true_eq] at hok
      obtain ⟨hk, hok'⟩ := hok
      have hc1 : (1 : Int) ≤ c := le_trans (by exact_mod_cast hk) hkc
      have hcs : cstep c CEvent.decRaw = c - 1 := rfl
      rw [hcs]
      exact ih (k - 1) (c - 1) hok' (by omega) (by omega)

theorem okw_append (l₁ : List CEvent) : ∀ (l₂ : List CEvent) (k : Nat),
    okw k (l₁ ++ l₂) = true → okw k l₁ = true := by
  induction l₁ with
  | nil => intro l₂ k _; rfl
  | cons e t ih =>
    intro l₂ k h
    cases e with
    | inc =>
      simp only [List.cons_append, okw] at h ⊢
      exact ih l₂ (k + 1) h
    | decClamp =>
      simp only [List.cons_append, okw, Bool.and_eq_true] at h ⊢
      exact ⟨h.1, ih l₂ (k - 1) h.2⟩
    | decRaw =>
      simp only [List.cons_append, okw, Bool.and_eq_true] at h ⊢
      exact ⟨h.1, ih l₂ (k - 1) h.2⟩

theorem okw_shuffle {a b c : List CEvent} (h : Shuffle a b c) :
    ∀ (j k : Nat), okw j a = true → okw k b = true → okw (j + k) c = true := by
  induction h with
  | nil => intro j k _ _; rfl
  | left e hs ih =>
    intro j k ha hb
    cases e with
    | inc =>
      simp only [okw] at ha ⊢
      have := ih (j + 1) k ha hb
      rwa [Nat.add_right_comm] at this
    | decClamp =>
      simp only [okw, Bool.and_eq_true, decide_eq_true_eq] at ha ⊢
      obtain ⟨hj, ha'⟩ := ha
      have h2 := ih (j - 1) k ha' hb
      refine ⟨by omega, ?_⟩
      have heq : j - 1 + k = j + k - 1 := by omega
      rwa [heq] at h2
    | decRaw =>
      simp only [okw, Bool.and_eq_true, decide_eq_true_eq] at ha ⊢
      obtain ⟨hj, ha'⟩ := ha
      have h2 := ih (j - 1) k ha' hb
      refine ⟨by omega, ?_⟩
      have heq : j - 1 + k = j + k - 1 := by omega
      rwa [heq] at h2
  | right e hs ih =>
    intro j k ha hb
    cases e with
    | inc =>
      simp only [okw] at hb ⊢
      exact ih j (k + 1) ha hb
    | decClamp =>
      simp only [okw, Bool.and_eq_true, decide_eq_true_eq] at hb ⊢
      obtain ⟨hk, hb'⟩ := hb
      have h2 := ih j (k - 1) ha hb'
      refine ⟨by omega, ?_⟩
      have heq : j + (k - 1) = j + k - 1 := by omega
      rwa [heq] at h2
    | decRaw =>
      simp only [okw, Bool.and_eq_true, decide_eq_true_eq] at hb ⊢
      obtain ⟨hk, hb'⟩ := hb
      have h2 := ih j (k - 1) ha hb'
      refine ⟨by omega, ?_⟩
      have heq : j + (k - 1) = j + k - 1 := by omega
      rwa [heq] at h2

theorem okw_interleaving {ls : List (List CEvent)} {tr : List CEvent}
    (h : InterleavingOf ls tr) :
    (∀ l ∈ ls, okw 0 l = true) → okw 0 tr = true := by
  induction h with
  | nil => intro _; rfl
  | cons hi hs ih =>
    intro hall
    have hc := ih fun x hx => hall x (List.mem_cons_of_mem _ hx)
    have hl := hall _ (List.mem_cons_self _ _)
    exact okw_shuffle hs 0 0 hl hc

theorem fetchM_events (pj : String → Option JsonVal) (st : JsonVal → String)
    (res : IFOut) (t : FetchType) :
    (fetchM pj st res t).2 = [CEvent.inc]
    ∨ (fetchM pj st res t).2 = [CEvent.inc, CEvent.decClamp]
    ∨ (fetchM pj st res t).2 = [CEvent.inc, CEvent.decRaw] := by
  cases res with
  | thrownE m => left; rfl
  | value r =>
    cases r with
    | undef => right; right; rfl
    | errRes m => right; right; rfl
    | strRes s =>
      cases t with
      | strT => right; left; rfl
      | htmlT => right; left; rfl
      | jsonT =>
        cases hps : pj s with
        | some j => right; left; simp [fetchM, hps]
        | none => right; right; simp [fetchM, hps]
    | objRes j =>
      cases t with
      | jsonT => right; left; rfl
      | strT => right; left; rfl
      | htmlT => right; right; rfl

theorem dlAfterBuffer_events (detect : Buffer → Option String) (b64 : Buffer → String)
    (a : DLArgs) (buffer : Option Buffer) (ts : List Transport) :
    (dlAfterBuffer detect b64 a buffer ts).events = [CEvent.inc, CEvent.decClamp]
    ∨ ((dlAfterBuffer detect b64 a buffer ts).events = [CEvent.inc]
       ∧ (dlAfterBuffer detect b64 a buffer ts).ret = DLRet.nothing
       ∧ ∃ b m, buffer = some b ∧ detect b = some m ∧ startsWithStr m "image/" = false) := by
  unfold dlAfterBuffer
  rcases buffer with _ | buf
  · left; rfl
  · by_cases hm : startsWithStr (getFileMime detect buf) "image/" = true
    · rcases a.returnType <;> simp [hm]
    · rcases hd : detect buf with _ | m
      · exact absurd (by rw [getFileMime, hd]; rfl) hm
      · have hne : startsWithStr (getFileMime detect buf) "image/" = false := by
          simpa [Bool.not_eq_true] using hm
        right
        refine ⟨by simp [hne], by simp [hne], buf, m, rfl, hd, ?_⟩
        have hgm : getFileMime detect buf = m := by rw [getFileMime, hd]; rfl
        rw [hgm] at hne
        exact hne

theorem downloadImage_events (detect : Buffer → Option String) (b64 : Buffer → String)
    (a : DLArgs) :
    (downloadImage detect b64 a).events = [CEvent.inc, CEvent.decClamp]
    ∨ ((downloadImage detect b64 a).events = [CEvent.inc]
       ∧ (((downloadImage detect b64 a).ret = DLRet.thrown
            ∧ (a.urlParseOk = false
               ∨ (a.axiosRes = none ∧ a.crawlerRes = CrawlerImgOutcome.throws)))
          ∨ ((downloadImage detect b64 a).ret = DLRet.nothing
            ∧ ∃ b m, bufferOf a = some b ∧ detect b = some m
                ∧ startsWithStr m "image/" = false))) := by
  unfold downloadImage
  cases hu : a.urlParseOk with
  | false => right; exact ⟨rfl, Or.inl ⟨rfl, Or.inl rfl⟩⟩
  | true =>
    rcases hc : loadFromCache detect b64 a.cacheEnabled a.cachedFile a.returnType with _ | cache
    · cases ha : a.axiosRes with
      | none =>
        cases hcr : a.crawlerRes with
        | throws => right; exact ⟨rfl, Or.inl ⟨rfl, Or.inr ⟨rfl, rfl⟩⟩⟩
        | returns r =>
          have hb : bufferOf a = r := by simp [bufferOf, ha, hcr]
          rcases dlAfterBuffer_events detect b64 a r (transportsOf a)
            with h | ⟨h1, h2, b, m, hbm, hd, hm⟩
          · left; exact h
          · right
            refine ⟨h1, Or.inr ⟨h2, b, m, ?_, hd, hm⟩⟩
            rw [hb, hbm]
      | some buf =>
        have hb : bufferOf a = some buf := by simp [bufferOf, ha]
        rcases dlAfterBuffer_events detect b64 a (some buf) (transportsOf a)
          with h | ⟨h1, h2, b, m, hbm, hd, hm⟩
        · left; exact h
        · right
          refine ⟨h1, Or.inr ⟨h2, b, m, ?_, hd, hm⟩⟩
          rw [hb, hbm]
    · left; rfl

namespace FileServer

theorem replaceTimer_map_fst (l : List (String × Nat)) (f : String) (lt : Nat) :
    (replaceTimer l f lt).map Prod.fst = l.map Prod.fst := by
  induction l with
  | nil => rfl
  | cons p rest ih =>
    by_cases h : p.1 == f
    · simp [replaceTimer, h]
    · simp [replaceTimer, h, ih]

theorem replaceTimer_mem (l : List (String × Nat)) (f : String) (lt : Nat)
    (h : l.any (fun p => p.1 == f) = true) : (f, lt) ∈ replaceTimer l f lt := by
  induction l with
  | nil => simp at h
  | cons p rest ih =>
    by_cases hp : p.1 == f
    · have : p.1 = f := by simpa using hp
      simp [replaceTimer, hp, this]
    · simp only [List.any_cons, Bool.or_eq_true] at h
      rcases h with h | h
      · exact absurd h hp
      · simp only [replaceTimer]
        rw [if_neg hp]
        exact List.mem_cons_of_mem _ (ih h)

end FileServer

namespace FileServer

theorem serv_hasTimer (s : State) (b : Buffer) (f : String) (lt : Nat) (w : Bool)
    (ht : hasTimer s f = true) :
    serv s b f lt w = ("/files/" ++ f, { s with timeouts := replaceTimer s.timeouts f lt }) := by
  simp [serv, resetFile, ht]

theorem serv_noTimer_write (s : State) (b : Buffer) (f : String) (lt : Nat)
    (ht : hasTimer s f = false) :
    serv s b f lt true =
      ("/files/" ++ f, { timeouts := s.timeouts ++ [(f, lt)], disk := writeDisk s.disk f b }) := by
  simp [serv, resetFile, initFile, ht]

theorem serv_noTimer_nowrite (s : State) (b : Buffer) (f : String) (lt : Nat)
    (ht : hasTimer s f = false) :
    serv s b f lt false = ("/files/" ++ f, s) := by
  simp [serv, resetFile, initFile, ht]

theorem delete_timeouts (s : State) (f : String) :
    (delete s f).2.timeouts = s.timeouts.filter fun p => p.1 != f := by
  simp only [delete]
  split <;> rfl

theorem hasTimer_false_not_mem (s : State) (f : String) (ht : hasTimer s f = false) :
    f ∉ timerNames s := by
  intro hmem
  rcases List.mem_map.mp hmem with ⟨p, hp, hfst⟩
  have hany : s.timeouts.any (fun p => p.1 == f) = true :=
    List.any_eq_true.mpr ⟨p, hp, by simp [hfst]⟩
  rw [hasTimer] at ht
  rw [hany] at ht
  exact Bool.true_eq_false.mp ht

theorem applyOp_nodup (s : State) (op : Op) (h : (timerNames s).Nodup) :
    (timerNames (applyOp s op)).Nodup := by
  cases op with
  | servOp b f lt w =>
    show (timerNames (serv s b f lt w).2).Nodup
    cases ht : hasTimer s f with
    | true =>
      rw [serv_hasTimer s b f lt w ht]
      simpa [timerNames, replaceTimer_map_fst] using h
    | false =>
      cases w with
      | true =>
        rw [serv_noTimer_write s b f lt ht]
        have hf : f ∉ s.timeouts.map Prod.fst := hasTimer_false_not_mem s f ht
        simp only [timerNames, List.map_append, List.map_cons, List.map_nil] at h ⊢
        rw [List.nodup_append]
        refine ⟨h, List.nodup_singleton f, ?_⟩
        intro x hx hxf
        rw [List.mem_singleton] at hxf
        subst hxf
        exact hf hx
      | false =>
        rw [serv_noTimer_nowrite s b f lt ht]
        exact h
  | deleteOp f =>
    show (timerNames (delete s f).2).Nodup
    rw [timerNames, delete_timeouts]
    exact h.sublist ((List.filter_sublist _).map Prod.fst)

theorem foldl_applyOp_nodup (ops : List Op) : ∀ s : State,
    (timerNames s).Nodup → (timerNames (ops.foldl applyOp s)).Nodup := by
  induction ops with
  | nil => intro s h; exact h
  | cons op rest ih => intro s h; exact ih _ (applyOp_nodup s op h)

theorem run_nodup (ops : List Op) : (timerNames (run ops)).Nodup :=
  foldl_applyOp_nodup ops ⟨[], []⟩ (by simp [timerNames])

end FileServer

theorem opTrace_okw (l : List CEvent) (h : IsOpTrace l) : okw 0 l = true := by
  have h3 : l = [CEvent.inc] ∨ l = [CEvent.inc, CEvent.decClamp]
      ∨ l = [CEvent.inc, CEvent.decRaw] := by
    rcases h with ⟨pj, st, res, t, rfl⟩ | ⟨de, b6, a, rfl⟩ | ⟨r, rfl⟩
    · exact fetchM_events pj st res t
    · rcases downloadImage_events de b6 a with h | ⟨h, _⟩
      · right; left; exact h
      · left; exact h
    · left; rfl
  rcases h3 with rfl | rfl | rfl <;> decide

theorem contains_snf :
    containsSubstr "selector_not_found" "no_selector_in_" = false := by decide

theorem contains_nsio :
    containsSubstr "no_selector_in_object" "no_selector_in_" = true := by decide

/-- Every `#internalFetch` outcome is either the crawler invocation result, a
direct string/object value, or a rethrown error whose message includes
`no_selector_in_`. -/
theorem internalFetch_cases (wfs : Option String) (sf : String → String → Bool)
    (axios : AxiosOutcome) (craw : CrawlerOutcome) :
    internalFetch wfs sf axios craw = crawlerOutputOf craw
    ∨ (∃ s, internalFetch wfs sf axios craw = IFOut.value (FetchRes.strRes s))
    ∨ (∃ j, internalFetch wfs sf axios craw = IFOut.value (FetchRes.objRes j))
    ∨ (∃ m, internalFetch wfs sf axios craw = IFOut.thrownE m
        ∧ containsSubstr m "no_selector_in_" = true) := by
  cases axios with
  | err m =>
    by_cases hm : containsSubstr m "no_selector_in_" = true
    · right; right; right
      exact ⟨m, by simp [internalFetch, directAttempt, hm], hm⟩
    · left
      simp only [Bool.not_eq_true] at hm
      simp [internalFetch, directAttempt, hm]
  | ok b =>
    cases b with
    | strB s =>
      cases wfs with
      | none => right; left; exact ⟨s, rfl⟩
      | some sel =>
        by_cases hs : sf sel s = true
        · right; left
          exact ⟨s, by simp [internalFetch, directAttempt, hs]⟩
        · left
          simp only [Bool.not_eq_true] at hs
          simp [internalFetch, directAttempt, hs, contains_snf]
    | objB j =>
      cases wfs with
      | none => right; right; left; exact ⟨j, rfl⟩
      | some sel =>
        right; right; right
        exact ⟨"no_selector_in_object",
          by simp [internalFetch, directAttempt, contains_nsio], contains_nsio⟩

theorem emptyLoop_attempted (u : String → Bool) (entries : List DirEntry) :
    (emptyLoop u entries).attempted = (entries.filter existsSyncE).map entryName := by
  induction entries with
  | nil => rfl
  | cons e rest ih =>
    cases e with
    | regular n =>
      cases hu : u n <;>
        simp [emptyLoop, existsSyncE, statSyncIsSymlink, entryName, hu, ih]
    | symlink n te =>
      cases te <;> cases hu : u n <;>
        simp [emptyLoop, existsSyncE, statSyncIsSymlink, entryName, hu, ih]

/-! # Claim theorems -/

/-- Claim C1 (counterexample): a completed, successful `post` call increments
the in-flight counter exactly once and performs no decrement at all, so the
net counter change of the completed call is +1, not 0 — refuting the claim
that every fetch operation (fetch, downloadImage, post) decrements exactly
once by the time the call completes. -/
theorem c1_counterexample :
    countInc (post (some "ok")).2 = 1 ∧ countDec (post (some "ok")).2 = 0
    ∧ crun 0 (post (some "ok")).2 = 1 := by decide

/-- Claim C1 (amended): `fetch` and `downloadImage` increment the counter
exactly once at entry; `fetch` decrements exactly once on every path except
when `#internalFetch` itself throws (the `no_selector_in_` rethrow or a
crawler exception); `downloadImage` decrements exactly once except when
`new URL(url)` in `#generateCacheFilename` throws, when the crawler
fallback itself rejects (axios having failed), or when the fetched buffer
is positively detected as a non-image type (the method falls off its end
without reaching `#returnFetch`); `post` increments once and never
decrements. -/
theorem c1_amended_counter_accounting :
    (∀ r, countInc (post r).2 = 1 ∧ countDec (post r).2 = 0)
    ∧ (∀ pj st res t, countInc (fetchM pj st res t).2 = 1
        ∧ countDec (fetchM pj st res t).2
            = (match res with | IFOut.thrownE _ => 0 | IFOut.value _ => 1))
    ∧ (∀ detect b64 a, countInc (downloadImage detect b64 a).events = 1
        ∧ (countDec (downloadImage detect b64 a).events = 1
           ∨ (countDec (downloadImage detect b64 a).events = 0
              ∧ (a.urlParseOk = false
                 ∨ (a.axiosRes = none ∧ a.crawlerRes = CrawlerImgOutcome.throws)
                 ∨ ∃ b m, bufferOf a = some b ∧ detect b = some m
                     ∧ startsWithStr m "image/" = false)))) := by
  refine ⟨fun r => ⟨rfl, rfl⟩, ?_, ?_⟩
  · intro pj st res t
    cases res with
    | thrownE m => exact ⟨rfl, rfl⟩
    | value r =>
      have h := fetchM_events pj st (IFOut.value r) t
      rcases h with h | h | h
      · exfalso
        cases r with
        | undef => simp [fetchM] at h
        | errRes m => simp [fetchM] at h
        | strRes s =>
          cases t with
          | strT => simp [fetchM] at h
          | htmlT => simp [fetchM] at h
          | jsonT =>
            cases hps : pj s with
            | some j => simp [fetchM, hps] at h
            | none => simp [fetchM, hps] at h
        | objRes j =>
          cases t with
          | jsonT => simp [fetchM] at h
          | strT => simp [fetchM] at h
          | htmlT => simp [fetchM] at h
      · rw [h]; exact ⟨rfl, rfl⟩
      · rw [h]; exact ⟨rfl, rfl⟩
  · intro detect b64 a
    rcases downloadImage_events detect b64 a with h | ⟨h, hrest⟩
    · rw [h]; exact ⟨rfl, Or.inl rfl⟩
    · rw [h]
      refine ⟨rfl, Or.inr ⟨rfl, ?_⟩⟩
      rcases hrest with ⟨_, hsrc⟩ | ⟨_, hex⟩
      · rcases hsrc with h1 | h2
        · exact Or.inl h1
        · exact Or.inr (Or.inl h2)
      · exact Or.inr (Or.inr hex)

/-- Claim C2: whenever the direct axios attempt throws for any reason other
than the internal missing-selector family, or the required selector is
absent from the direct textual response, `#internalFetch` reissues the job
to the rendering transport; and the internal `selector_not_found` failure is
never the error surfaced by `fetch` unless the opaque rendering transport
itself produced that message. -/
theorem c2_transport_fallback :
    (∀ (wfs : Option String) (sf : String → String → Bool) (m : String)
        (craw : CrawlerOutcome), containsSubstr m "no_selector_in_" = false →
        internalFetch wfs sf (AxiosOutcome.err m) craw = crawlerOutputOf craw)
    ∧ (∀ (sel : String) (sf : String → String → Bool) (s : String)
        (craw : CrawlerOutcome), sf sel s = false →
        internalFetch (some sel) sf (AxiosOutcome.ok (Body.strB s)) craw
          = crawlerOutputOf craw)
    ∧ (∀ (wfs : Option String) (sf : String → String → Bool) (axios : AxiosOutcome)
        (craw : CrawlerOutcome) (pj : String → Option JsonVal) (st : JsonVal → String)
        (t : FetchType),
        (fetchM pj st (internalFetch wfs sf axios craw) t).1
            = Except.error "selector_not_found" →
        craw = CrawlerOutcome.returns (FetchRes.errRes "selector_not_found")
          ∨ craw = CrawlerOutcome.throws "selector_not_found") := by
  refine ⟨?_, ?_, ?_⟩
  · intro wfs sf m craw hm
    simp [internalFetch, directAttempt, hm]
  · intro sel sf s craw hs
    simp [internalFetch, directAttempt, hs, contains_snf]
  · intro wfs sf axios craw pj st t hsurf
    rcases internalFetch_cases wfs sf axios craw with hif | ⟨s, hif⟩ | ⟨j, hif⟩ | ⟨m, hif, hm⟩
    · rw [hif] at hsurf
      cases craw with
      | throws m =>
        simp only [crawlerOutputOf, fetchM, Except.error.injEq] at hsurf
        right; rw [hsurf]
      | returns r =>
        cases r with
        | undef => simp [crawlerOutputOf, fetchM] at hsurf
        | errRes m =>
          simp only [crawlerOutputOf, fetchM, Except.error.injEq] at hsurf
          left; rw [hsurf]
        | strRes s =>
          cases t with
          | strT => simp [crawlerOutputOf, fetchM] at hsurf
          | htmlT => simp [crawlerOutputOf, fetchM] at hsurf
          | jsonT =>
            cases hps : pj s with
            | some j => simp [crawlerOutputOf, fetchM, hps] at hsurf
            | none => simp [crawlerOutputOf, fetchM, hps] at hsurf
        | objRes j =>
          cases t with
          | jsonT => simp [crawlerOutputOf, fetchM] at hsurf
          | strT => simp [crawlerOutputOf, fetchM] at hsurf
          | htmlT => simp [crawlerOutputOf, fetchM] at hsurf
    · rw [hif] at hsurf
      cases t with
      | strT => simp [fetchM] at hsurf
      | htmlT => simp [fetchM] at hsurf
      | jsonT =>
        cases hps : pj s with
        | some j => simp [fetchM, hps] at hsurf
        | none => simp [fetchM, hps] at hsurf
    · rw [hif] at hsurf
      cases t with
      | jsonT => simp [fetchM] at hsurf
      | strT => simp [fetchM] at hsurf
      | htmlT => simp [fetchM] at hsurf
    · rw [hif] at hsurf
      simp only [fetchM, Except.error.injEq] at hsurf
      rw [hsurf] at hm
      rw [contains_snf] at hm
      exact absurd hm (by decide)

/-- Claim C2 witness: a concrete axios failure and a concrete
selector-missing response both fall back to the rendering transport. -/
theorem c2_transport_fallback_witness :
    internalFetch none (fun _ _ => false) (AxiosOutcome.err "boom")
        (CrawlerOutcome.returns FetchRes.undef)
      = crawlerOutputOf (CrawlerOutcome.returns FetchRes.undef)
    ∧ internalFetch (some "div.chapter") (fun _ _ => false)
        (AxiosOutcome.ok (Body.strB "<html></html>"))
        (CrawlerOutcome.returns (FetchRes.strRes "rendered"))
      = crawlerOutputOf (CrawlerOutcome.returns (FetchRes.strRes "rendered")) :=
  ⟨c2_transport_fallback.1 none (fun _ _ => false) "boom"
      (CrawlerOutcome.returns FetchRes.undef) (by decide),
    c2_transport_fallback.2.1 "div.chapter" (fun _ _ => false) "<html></html>"
      (CrawlerOutcome.returns (FetchRes.strRes "rendered")) rfl⟩

/-- Claim C4: when the normalized cache key exists (the `new URL` call in
`#generateCacheFilename` succeeded) and the response cache holds an asset
under it (a cache hit), `downloadImage` returns the cached result through
`#returnFetch` and invokes neither the direct HTTP transport nor the
rendering transport. -/
theorem c4_cache_hit_no_transport (detect : Buffer → Option String)
    (b64 : Buffer → String) (a : DLArgs) (c : CacheVal)
    (hp : a.urlParseOk = true)
    (h : loadFromCache detect b64 a.cacheEnabled a.cachedFile a.returnType = some c) :
    (downloadImage detect b64 a).transports = []
    ∧ (downloadImage detect b64 a).ret = returnFetchCache c a.filename := by
  have hd : downloadImage detect b64 a
      = ⟨returnFetchCache c a.filename, [], [CEvent.inc, CEvent.decClamp], false⟩ := by
    unfold downloadImage
    rw [hp, h]
    rfl
  rw [hd]
  exact ⟨rfl, rfl⟩

/-- Claim C4 witness: a concrete page-type cache hit performs no transport
call and serves the cached buffer. -/
theorem c4_cache_hit_no_transport_witness :
    (downloadImage (fun _ => none) (fun _ => "")
        ⟨true, true, some [1], none, CrawlerImgOutcome.returns none, false,
          RetType.page, "f"⟩).transports = []
    ∧ (downloadImage (fun _ => none) (fun _ => "")
        ⟨true, true, some [1], none, CrawlerImgOutcome.returns none, false,
          RetType.page, "f"⟩).ret
      = returnFetchCache (CacheVal.buf [1]) "f" :=
  c4_cache_hit_no_transport (fun _ => none) (fun _ => "")
    ⟨true, true, some [1], none, CrawlerImgOutcome.returns none, false, RetType.page, "f"⟩
    (CacheVal.buf [1]) rfl rfl

/-- Claim C8: on a textual body that `JSON.parse` rejects, `fetch(job,
"json")` fails with `invalid_json` while `fetch(job, "string")` on the same
body succeeds and returns the raw text unchanged. -/
theorem c8_json_vs_string (pj : String → Option JsonVal) (st : JsonVal → String)
    (s : String) (h : pj s = none) :
    (fetchM pj st (IFOut.value (FetchRes.strRes s)) FetchType.jsonT).1
        = Except.error "invalid_json"
    ∧ (fetchM pj st (IFOut.value (FetchRes.strRes s)) FetchType.strT).1
        = Except.ok (FetchOut.strOut s) := by
  constructor
  · simp [fetchM, h]
  · rfl

/-- Claim C8 witness: concrete non-JSON body. -/
theorem c8_json_vs_string_witness :
    (fetchM (fun _ => none) (fun j => j.val)
        (IFOut.value (FetchRes.strRes "<html>not json</html>")) FetchType.jsonT).1
      = Except.error "invalid_json"
    ∧ (fetchM (fun _ => none) (fun j => j.val)
        (IFOut.value (FetchRes.strRes "<html>not json</html>")) FetchType.strT).1
      = Except.ok (FetchOut.strOut "<html>not json</html>") :=
  c8_json_vs_string (fun _ => none) (fun j => j.val) "<html>not json</html>" rfl

/-- Claim C3: all builders share one identity algorithm, which is a pure
function of the store state and the (source, url, language-set) tuple — so
two independent calls without a forced id yield the same identifier (whether
the store already holds the record or the generator mints one) — and a
forced id matching an existing record within the matching language set
adopts that record's identifier instead of minting a fresh one. -/
theorem c3_builder_identity (gen : GenArgs → String)
    (getById : String → List String → Option MgRecord)
    (getByUrl : String → List String → String → Option MgRecord)
    (name : String) (version : Nat) :
    (∀ langs url,
        mangaPageBuilderId gen getById getByUrl name version langs url none
          = searchResultsBuilderId gen getById getByUrl name version langs url none)
    ∧ (∀ langs url r, url ≠ "" → getByUrl name langs url = some r →
        mangaPageBuilderId gen getById getByUrl name version langs url none = Except.ok r.id)
    ∧ (∀ langs url, url ≠ "" → getByUrl name langs url = none →
        mangaPageBuilderId gen getById getByUrl name version langs url none
          = Except.ok (gen ⟨name, version, langs, url, none, false⟩))
    ∧ (∀ langs url i r, i ≠ "" → getById i langs = some r →
        mangaPageBuilderId gen getById getByUrl name version langs url (some i) = Except.ok r.id
        ∧ searchResultsBuilderId gen getById getByUrl name version langs url (some i)
            = Except.ok r.id)
    ∧ (∀ lang url i r, i ≠ "" → getById i [lang] = some r →
        chaptersBuilderId gen getById getByUrl name version lang url (some i)
          = Except.ok r.id) := by
  refine ⟨fun langs url => rfl, ?_, ?_, ?_, ?_⟩
  · intro langs url r hu hr
    have hu' : (url != "") = true := bne_iff_ne.mpr hu
    simp [mangaPageBuilderId, idTruthy, uuidv5, hu', hr]
  · intro langs url hu hn
    have hu' : (url != "") = true := bne_iff_ne.mpr hu
    simp [mangaPageBuilderId, idTruthy, uuidv5, hu', hn]
  · intro langs url i r hi hr
    have hi' : (i != "") = true := bne_iff_ne.mpr hi
    constructor
    · simp [mangaPageBuilderId, idTruthy, uuidv5, hi', hr]
    · simp [searchResultsBuilderId, idTruthy, uuidv5, hi', hr]
  · intro lang url i r hi hr
    have hi' : (i != "") = true := bne_iff_ne.mpr hi
    simp [chaptersBuilderId, idTruthy, uuidv5, hi', hr]

/-- Claim C3 witness: concrete store states exercising the lookup-hit,
mint, and forced-id-adoption paths. -/
theorem c3_builder_identity_witness :
    mangaPageBuilderId (fun _ => "minted") (fun _ _ => none) (fun _ _ _ => some ⟨"stored"⟩)
        "mname" 1 ["en"] "/manga/1" none
      = searchResultsBuilderId (fun _ => "minted") (fun _ _ => none)
        (fun _ _ _ => some ⟨"stored"⟩) "mname" 1 ["en"] "/manga/1" none
    ∧ mangaPageBuilderId (fun _ => "minted") (fun _ _ => none) (fun _ _ _ => some ⟨"stored"⟩)
        "mname" 1 ["en"] "/manga/1" none = Except.ok "stored"
    ∧ mangaPageBuilderId (fun _ => "minted") (fun _ _ => none) (fun _ _ _ => none)
        "mname" 1 ["en"] "/manga/1" none = Except.ok "minted"
    ∧ mangaPageBuilderId (fun _ => "minted") (fun _ _ => some ⟨"existing"⟩) (fun _ _ _ => none)
        "mname" 1 ["en"] "/manga/1" (some "forced") = Except.ok "existing"
    ∧ chaptersBuilderId (fun _ => "minted") (fun _ _ => some ⟨"existing"⟩) (fun _ _ _ => none)
        "mname" 1 "en" "/ch/1" (some "forced") = Except.ok "existing" :=
  ⟨(c3_builder_identity (fun _ => "minted") (fun _ _ => none) (fun _ _ _ => some ⟨"stored"⟩)
      "mname" 1).1 ["en"] "/manga/1",
    (c3_builder_identity (fun _ => "minted") (fun _ _ => none) (fun _ _ _ => some ⟨"stored"⟩)
      "mname" 1).2.1 ["en"] "/manga/1" ⟨"stored"⟩ (by decide) rfl,
    (c3_builder_identity (fun _ => "minted") (fun _ _ => none) (fun _ _ _ => none)
      "mname" 1).2.2.1 ["en"] "/manga/1" (by decide) rfl,
    ((c3_builder_identity (fun _ => "minted") (fun _ _ => some ⟨"existing"⟩) (fun _ _ _ => none)
      "mname" 1).2.2.2.1 ["en"] "/manga/1" "forced" ⟨"existing"⟩ (by decide) rfl).1,
    (c3_builder_identity (fun _ => "minted") (fun _ _ => some ⟨"existing"⟩) (fun _ _ _ => none)
      "mname" 1).2.2.2.2 "en" "/ch/1" "forced" ⟨"existing"⟩ (by decide) rfl⟩

/-- Claim C5: for any interleaving of event traces of completed or abandoned
`fetch` / `downloadImage` / `post` calls, starting from a freshly
constructed instance (counter 0), the counter is never negative at any
prefix of the interleaving; and the pre-request wait `waitTime ×
concurrency` is monotonically non-decreasing in the counter read at the
moment of the call. -/
theorem c5_counter_invariant :
    (∀ (ls : List (List CEvent)) (tr : List CEvent),
        (∀ l ∈ ls, IsOpTrace l) → InterleavingOf ls tr →
        ∀ p q : List CEvent, p ++ q = tr → 0 ≤ crun 0 p)
    ∧ (∀ w c₁ c₂ : Int, 0 ≤ w → c₁ ≤ c₂ → waitMs w c₁ ≤ waitMs w c₂) := by
  constructor
  · intro ls tr hall hint p q hpq
    have htr : okw 0 tr = true :=
      okw_interleaving hint fun l hl => opTrace_okw l (hall l hl)
    have hp : okw 0 p = true := okw_append p q 0 (by rwa [hpq])
    exact okw_nonneg p 0 0 hp (by simp) le_rfl
  · intro w c₁ c₂ hw hc
    exact mul_le_mul_of_nonneg_left hc hw

/-- Claim C5 witness: a single completed string fetch, interleaved alone. -/
theorem c5_counter_invariant_witness :
    0 ≤ crun 0 [CEvent.inc, CEvent.decClamp] ∧ waitMs 200 0 ≤ waitMs 200 1 := by
  constructor
  · refine c5_counter_invariant.1 [[CEvent.inc, CEvent.decClamp]]
      [CEvent.inc, CEvent.decClamp] ?_ ?_ [CEvent.inc, CEvent.decClamp] [] (by simp)
    · intro l hl
      rw [List.mem_singleton] at hl
      subst hl
      exact Or.inl ⟨fun _ => none, fun _ => "", IFOut.value (FetchRes.strRes "x"),
        FetchType.strT, rfl⟩
    · exact InterleavingOf.cons InterleavingOf.nil
        (Shuffle.left CEvent.inc (Shuffle.left CEvent.decClamp Shuffle.nil))
  · exact c5_counter_invariant.2 200 0 1 (by decide) (by decide)

/-- Claim C6: in every state reachable by `serv` and `delete` operations
from a fresh `FileServer`, timer-table filenames are pairwise distinct (at
most one live timer per filename); and a `serv` on a filename with a live
timer returns the servable path, leaves the disk untouched, keeps the timer
table filenames unchanged (no second entry) and re-arms the timer with the
new lifetime. -/
theorem c6_timer_uniqueness :
    (∀ s : FileServer.State, FileServer.Reachable s → (FileServer.timerNames s).Nodup)
    ∧ (∀ (s : FileServer.State) (b : Buffer) (f : String) (lt : Nat) (w : Bool),
        FileServer.hasTimer s f = true →
        (FileServer.serv s b f lt w).1 = "/files/" ++ f
        ∧ (FileServer.serv s b f lt w).2.disk = s.disk
        ∧ FileServer.timerNames (FileServer.serv s b f lt w).2 = FileServer.timerNames s
        ∧ (f, lt) ∈ (FileServer.serv s b f lt w).2.timeouts) := by
  constructor
  · rintro s ⟨ops, rfl⟩
    exact FileServer.run_nodup ops
  · intro s b f lt w ht
    rw [FileServer.serv_hasTimer s b f lt w ht]
    refine ⟨rfl, rfl, ?_, ?_⟩
    · show (FileServer.replaceTimer s.timeouts f lt).map Prod.fst = s.timeouts.map Prod.fst
      exact FileServer.replaceTimer_map_fst s.timeouts f lt
    · exact FileServer.replaceTimer_mem s.timeouts f lt ht

/-- Claim C6 witness: a state reached by one `serv`, and a re-serve of an
already-tracked filename. -/
theorem c6_timer_uniqueness_witness :
    (FileServer.timerNames (FileServer.State.mk [("a", 5)] [("a", [1])])).Nodup
    ∧ ((FileServer.serv ⟨[("a", 1)], []⟩ [2] "a" 9 true).1 = "/files/" ++ "a"
      ∧ (FileServer.serv ⟨[("a", 1)], []⟩ [2] "a" 9 true).2.disk
          = (FileServer.State.mk [("a", 1)] []).disk
      ∧ FileServer.timerNames (FileServer.serv ⟨[("a", 1)], []⟩ [2] "a" 9 true).2
          = FileServer.timerNames ⟨[("a", 1)], []⟩
      ∧ ("a", 9) ∈ (FileServer.serv ⟨[("a", 1)], []⟩ [2] "a" 9 true).2.timeouts) :=
  ⟨c6_timer_uniqueness.1 ⟨[("a", 5)], [("a", [1])]⟩
      ⟨[FileServer.Op.servOp [1] "a" 5 true], rfl⟩,
    c6_timer_uniqueness.2 ⟨[("a", 1)], []⟩ [2] "a" 9 true rfl⟩

/-- Claim C7: `delete` on a filename whose backing file is absent returns
`false` without throwing, and afterwards no timer entry for that filename
remains (the table is pruned before the failing unlink). -/
theorem c7_delete_missing (s : FileServer.State) (f : String)
    (h : s.disk.any (fun p => p.1 == f) = false) :
    (FileServer.delete s f).1 = false
    ∧ ∀ p ∈ (FileServer.delete s f).2.timeouts, p.1 ≠ f := by
  constructor
  · simp [FileServer.delete, h]
  · intro p hp
    rw [FileServer.delete_timeouts] at hp
    have hmem := List.of_mem_filter hp
    simpa using hmem

/-- Claim C7 witness: deleting a tracked filename whose file is absent. -/
theorem c7_delete_missing_witness :
    (FileServer.delete ⟨[("a", 1)], []⟩ "a").1 = false
    ∧ ∀ p ∈ (FileServer.delete ⟨[("a", 1)], []⟩ "a").2.timeouts, p.1 ≠ "a" :=
  c7_delete_missing ⟨[("a", 1)], []⟩ "a" rfl

/-- Claim C9: a buffer whose file type cannot be detected gets mime
`image/jpeg` from `getFileMime`, which passes the `image/` requirement, and
a cover cache hit on such bytes is returned as a `data:image/jpeg` URI;
conversely the content-type check rejects only positively detected
non-image buffers: whenever `downloadImage` returns `undefined` by falling
off its end without a decrement (as opposed to an exception escaping), the
buffer was positively detected as a non-image type. -/
theorem c9_mime_default (detect : Buffer → Option String) (b64 : Buffer → String) :
    (∀ buf : Buffer, detect buf = none →
        getFileMime detect buf = "image/jpeg"
        ∧ startsWithStr (getFileMime detect buf) "image/" = true
        ∧ loadFromCache detect b64 true (some buf) RetType.cover
            = some (CacheVal.uri ("data:image/jpeg;base64," ++ b64 buf)))
    ∧ (∀ a : DLArgs, (downloadImage detect b64 a).events = [CEvent.inc] →
        (downloadImage detect b64 a).ret = DLRet.nothing →
        ∃ b m, bufferOf a = some b ∧ detect b = some m
          ∧ startsWithStr m "image/" = false) := by
  constructor
  · intro buf hd
    have hm : getFileMime detect buf = "image/jpeg" := by rw [getFileMime, hd]; rfl
    refine ⟨hm, by rw [hm]; decide, ?_⟩
    have hcache : loadFromCache detect b64 true (some buf) RetType.cover
        = some (CacheVal.uri ("data:" ++ getFileMime detect buf ++ ";base64," ++ b64 buf)) :=
      rfl
    rw [hcache, hm]
    have hlit : ("data:" ++ "image/jpeg" ++ ";base64," : String) = "data:image/jpeg;base64," := by
      decide
    rw [hlit]
  · intro a h hret
    rcases downloadImage_events detect b64 a with he | ⟨_, hrest⟩
    · rw [he] at h
      exact absurd h (by decide)
    · rcases hrest with ⟨hthr, _⟩ | ⟨_, hex⟩
      · rw [hthr] at hret
        exact absurd hret (by decide)
      · exact hex

/-- Claim C9 witness: an undetectable buffer defaults to `image/jpeg` and a
positively detected `text/html` buffer is the reject-path evidence. -/
theorem c9_mime_default_witness :
    (getFileMime (fun _ => none) [255] = "image/jpeg"
      ∧ startsWithStr (getFileMime (fun _ => none) [255]) "image/" = true
      ∧ loadFromCache (fun _ => none) (fun _ => "QUJD") true (some [255]) RetType.cover
          = some (CacheVal.uri ("data:image/jpeg;base64," ++ "QUJD")))
    ∧ (∃ b m, bufferOf ⟨true, false, none, some [1], CrawlerImgOutcome.returns none, false,
            RetType.page, "f"⟩ = some b
        ∧ (fun _ : Buffer => some "text/html") b = some m
        ∧ startsWithStr m "image/" = false) :=
  ⟨(c9_mime_default (fun _ => none) (fun _ => "QUJD")).1 [255] rfl,
    (c9_mime_default (fun _ : Buffer => some "text/html") (fun _ => "")).2
      ⟨true, false, none, some [1], CrawlerImgOutcome.returns none, false, RetType.page, "f"⟩
      rfl rfl⟩

/-- Claim C10 (counterexample): a folder containing one dangling symbolic
link: the entry fails the `existsSync` check (which follows links), so no
unlink is attempted on it — refuting "the purge attempts to unlink every
entry in the folder". -/
theorem c10_counterexample :
    (emptyLoop (fun _ => true) [DirEntry.symlink "a" false]).attempted = []
    ∧ entryName (DirEntry.symlink "a" false) = "a" := by decide

/-- Claim C10 (amended): the purge classifies entries with `stat`, which
follows links, so no entry that passes the `existsSync` check is identified
as a symbolic link, and `unlinkSync` is attempted on exactly the entries
whose link-resolution exists — symlinks to existing targets included, with
dangling symlinks skipped by the `existsSync` guard; the attempted set does
not depend on unlink success, so individual unlink failures are ignored and
the purge (hence construction) always completes. -/
theorem c10_amended_purge (u : String → Bool) (entries : List DirEntry) :
    (emptyLoop u entries).attempted = (entries.filter existsSyncE).map entryName
    ∧ (emptyLoop u [DirEntry.regular "r", DirEntry.symlink "s" true,
          DirEntry.symlink "d" false]).attempted = ["r", "s"] := by
  refine ⟨emptyLoop_attempted u entries, ?_⟩
  rw [emptyLoop_attempted]
  rfl
